import Mathlib

/-!
Shallow embedding of `src/main.rs` of the ruchip8 CHIP-8 interpreter.

Conventions of the embedding:
* `u8` values are `Fin 256`, `u16` values pushed on the stack are `Fin 65536`,
  `usize` fields (`i`, `pc`, `sp`) are `Nat` (64-bit overflow is unreachable
  for the operations modelled here).
* A Rust `panic!` (the `opcode_not_implemented!` macro, `Vec::pop().expect`,
  out-of-bounds array indexing) is modelled as `Except.error` with a
  `PanicKind` payload recording the data interpolated into the panic message.
  The source has no typed error channel: every `Except.error` in this file
  stands for a process abort of the Rust program.
* Wrapping (release-profile) semantics are used for the `i8` arithmetic in
  `sub_vx_vy` / `subn_vx_vy` and the `u8` multiply in `set_i_sprite`.
-/

set_option maxRecDepth 10000

namespace Ruchip8

/-- Index of the flag register VF (source constant `FLAG`). -/
def FLAG : Fin 16 := ⟨15, by omega⟩

/-- Source constant `STACK_SIZE` (declared in the source but never used). -/
def STACK_SIZE : Nat := 16

/-- Source constant `REGISTER_SIZE`. -/
def REGISTER_SIZE : Nat := 16

/-- Source constant `PROGRAM_START`. -/
def PROGRAM_START : Nat := 0x200

/-- Source constant `MEMORY_SIZE`. -/
def MEMORY_SIZE : Nat := 4096

/-- Bitwise and of a byte with a mask (`u8 & mask`). -/
def and8 (a : Fin 256) (m : Nat) : Fin 256 :=
  ⟨a.val &&& m, lt_of_le_of_lt Nat.and_le_left a.isLt⟩

/-- Bitwise or of two bytes (`u8 | u8`). -/
def or8 (a b : Fin 256) : Fin 256 :=
  ⟨a.val ||| b.val, Nat.or_lt_two_pow (n := 8) a.isLt b.isLt⟩

/-- Bitwise xor of two bytes (`u8 ^ u8`). -/
def xor8 (a b : Fin 256) : Fin 256 :=
  ⟨a.val ^^^ b.val, Nat.xor_lt_two_pow (n := 8) a.isLt b.isLt⟩

/-- Wrapping byte addition (`u8::wrapping_add`). -/
def add8wrap (a b : Fin 256) : Fin 256 :=
  ⟨(a.val + b.val) % 256, Nat.mod_lt _ (by omega)⟩

/-- Logical right shift of a byte by one (`u8 >> 1`). -/
def shr8 (a : Fin 256) : Fin 256 :=
  ⟨a.val >>> 1, by
    have h := Nat.shiftRight_eq_div_pow a.val 1
    have := a.isLt
    omega⟩

/-- Left shift of a byte by one (`u8 << 1`, truncating to 8 bits). -/
def shl8 (a : Fin 256) : Fin 256 :=
  ⟨(a.val <<< 1) % 256, Nat.mod_lt _ (by omega)⟩

/-- Reinterpretation of a `u8` as an `i8` (`as i8`). -/
def i8_of_u8 (b : Fin 256) : Int :=
  if b.val < 128 then (b.val : Int) else (b.val : Int) - 256

/-- Wrap an integer into the `i8` range, the release-profile result of `i8`
arithmetic. -/
def i8_wrap (z : Int) : Int := (z + 128) % 256 - 128

/-- Reinterpretation of an `i8` value as a `u8` (`as u8`). -/
def u8_of_i8 (z : Int) : Fin 256 :=
  ⟨(z % 256).toNat, by omega⟩

/-- Payload of a Rust `panic!`: these model the `opcode_not_implemented!`
macro (carrying the formatted opcode and program counter), the
`.expect("Stored address")` on popping an empty stack, and out-of-bounds
array indexing (carrying the offending index). -/
inductive PanicKind where
  | opcodeNotImplemented (ops pc : Nat)
  | popEmptyStack
  | indexOutOfBounds (idx : Nat)
deriving DecidableEq

/-- The machine state, mirroring `struct Chip8` field by field. -/
@[ext]
structure Chip8 where
  /-- Index register (usize). -/
  i : Nat
  /-- Program counter (usize). -/
  pc : Nat
  /-- Registers V0..VF. -/
  v : Fin 16 → Fin 256
  /-- Stack of `u16` return addresses; head of the list is the top. -/
  stack : List (Fin 65536)
  /-- Stack pointer (declared in the source but never updated). -/
  sp : Nat
  /-- Machine memory, 4096 bytes. -/
  memory : Fin 4096 → Fin 256
  /-- Delay timer. -/
  delay_timer : Fin 256
  /-- Sound timer. -/
  sound_timer : Fin 256
  /-- Wait-for-key flag and pending register index (`(bool, u8)`). -/
  wait_for_key : Bool × Fin 256
  /-- Shift-quirk flag: shift source is VY when true, VX otherwise. -/
  shift_vy : Bool
deriving DecidableEq

/-- The state built by `Chip8::new()`. -/
def chip8_new : Chip8 where
  i := 0
  pc := PROGRAM_START
  v := fun _ => 0
  stack := []
  sp := 0
  memory := fun _ => 0
  delay_timer := 0
  sound_timer := 0
  wait_for_key := (false, 0)
  shift_vy := false

/-- Source `reset`: reinitialize registers, stack, pc, index register and
stack pointer, keeping the memory (and timers, wait flag, quirk flag). -/
def reset (s : Chip8) : Chip8 :=
  { s with v := fun _ => 0, stack := [], pc := PROGRAM_START, i := 0, sp := 0 }

/-- Source `set_reg_vn`: write a register and advance the pc by 2. -/
def set_reg_vn (s : Chip8) (n : Fin 16) (val : Fin 256) : Chip8 :=
  { s with v := Function.update s.v n val, pc := s.pc + 2 }

/-- Source `read_reg_vn`. -/
def read_reg_vn (s : Chip8) (n : Fin 16) : Fin 256 :=
  s.v n

/-- Source `cls`: the display is a TODO in the source; only the pc advances. -/
def cls (s : Chip8) : Chip8 :=
  { s with pc := s.pc + 2 }

/-- Source `jump_addr`: set the pc absolutely. -/
def jump_addr (s : Chip8) (addr : Nat) : Chip8 :=
  { s with pc := addr }

/-- Source `ret`: pop the stack (`expect` panics when empty) and jump to the
popped address.  Dead code in the source: `check_opcode` never calls it. -/
def ret (s : Chip8) : Except PanicKind Chip8 :=
  match s.stack with
  | [] => .error .popEmptyStack
  | addr :: rest => .ok (jump_addr { s with stack := rest } addr.val)

/-- Source `call_sub`: push the current pc (`as u16`) and jump.  There is no
capacity check: the `Vec` grows without bound. -/
def call_sub (s : Chip8) (addr : Nat) : Chip8 :=
  jump_addr { s with stack := ⟨s.pc % 65536, Nat.mod_lt _ (by omega)⟩ :: s.stack } addr

/-- Source `se_vx`: skip the next instruction when VX = NN. -/
def se_vx (s : Chip8) (x : Fin 16) (nn : Fin 256) : Chip8 :=
  { s with pc := s.pc + if s.v x = nn then 4 else 2 }

/-- Source `sne_vx`: skip the next instruction when VX ≠ NN. -/
def sne_vx (s : Chip8) (x : Fin 16) (nn : Fin 256) : Chip8 :=
  { s with pc := s.pc + if s.v x ≠ nn then 4 else 2 }

/-- Source `se_vx_vy`: skip the next instruction when VX = VY. -/
def se_vx_vy (s : Chip8) (x y : Fin 16) : Chip8 :=
  { s with pc := s.pc + if s.v x = s.v y then 4 else 2 }

/-- Source `or_vx_vy`. -/
def or_vx_vy (s : Chip8) (x y : Fin 16) : Chip8 :=
  { s with v := Function.update s.v x (or8 (s.v x) (s.v y)), pc := s.pc + 2 }

/-- Source `and_vx_vy`. -/
def and_vx_vy (s : Chip8) (x y : Fin 16) : Chip8 :=
  { s with v := Function.update s.v x (and8 (s.v x) (s.v y).val), pc := s.pc + 2 }

/-- Source `xor_vx_vy`. -/
def xor_vx_vy (s : Chip8) (x y : Fin 16) : Chip8 :=
  { s with v := Function.update s.v x (xor8 (s.v x) (s.v y)), pc := s.pc + 2 }

/-- Source `add_vx_vy`: 9-bit-wide sum in `u16`; VX receives the low byte,
then VF receives the carry (so for x = 15 the carry overwrites the sum). -/
def add_vx_vy (s : Chip8) (x y : Fin 16) : Chip8 :=
  let sum : Nat := (s.v x).val + (s.v y).val
  let s1 := { s with v := Function.update s.v x ⟨sum % 256, Nat.mod_lt _ (by omega)⟩ }
  let s2 := { s1 with v := Function.update s1.v FLAG (if sum > 0xFF then 1 else 0) }
  { s2 with pc := s2.pc + 2 }

/-- Source `sub_vx_vy`: VX := VX - VY computed in `i8`; VX receives the
reinterpreted difference, then VF := 1 when the (wrapped) `i8` difference is
negative, 0 otherwise. -/
def sub_vx_vy (s : Chip8) (x y : Fin 16) : Chip8 :=
  let diff : Int := i8_wrap (i8_of_u8 (s.v x) - i8_of_u8 (s.v y))
  let s1 := { s with v := Function.update s.v x (u8_of_i8 diff) }
  let s2 := { s1 with v := Function.update s1.v FLAG (if diff < 0 then 1 else 0) }
  { s2 with pc := s2.pc + 2 }

/-- Source `subn_vx_vy`: VX := VY - VX, same flag convention as `sub_vx_vy`. -/
def subn_vx_vy (s : Chip8) (x y : Fin 16) : Chip8 :=
  let diff : Int := i8_wrap (i8_of_u8 (s.v y) - i8_of_u8 (s.v x))
  let s1 := { s with v := Function.update s.v x (u8_of_i8 diff) }
  let s2 := { s1 with v := Function.update s1.v FLAG (if diff < 0 then 1 else 0) }
  { s2 with pc := s2.pc + 2 }

/-- Source `rshft_vx_vy`: source register is VY when `shift_vy`, else VX;
VF := source & 0x01, then VX := source >> 1 (the second read of the source
register happens after the flag write, as in the source). -/
def rshft_vx_vy (s : Chip8) (x y : Fin 16) : Chip8 :=
  let n := if s.shift_vy then y else x
  let s1 := { s with v := Function.update s.v FLAG (and8 (s.v n) 0x01) }
  let s2 := { s1 with v := Function.update s1.v x (shr8 (s1.v n)) }
  { s2 with pc := s2.pc + 2 }

/-- Source `lshft_vx_vy`: VF := source & 0x80 (0 or 0x80, not 0 or 1), then
VX := source << 1. -/
def lshft_vx_vy (s : Chip8) (x y : Fin 16) : Chip8 :=
  let n := if s.shift_vy then y else x
  let s1 := { s with v := Function.update s.v FLAG (and8 (s.v n) 0x80) }
  let s2 := { s1 with v := Function.update s1.v x (shl8 (s1.v n)) }
  { s2 with pc := s2.pc + 2 }

/-- Source `skip_ne_vx_vy`. -/
def skip_ne_vx_vy (s : Chip8) (x y : Fin 16) : Chip8 :=
  { s with pc := s.pc + if s.v x ≠ s.v y then 4 else 2 }

/-- Source `set_i_addr`. -/
def set_i_addr (s : Chip8) (addr : Nat) : Chip8 :=
  { s with i := addr, pc := s.pc + 2 }

/-- Source `rnd_vx_nn`: the random byte produced by `rand::random::<u8>()` is
passed in as the parameter `rnd`. -/
def rnd_vx_nn (s : Chip8) (x : Fin 16) (nn : Fin 256) (rnd : Fin 256) : Chip8 :=
  { s with v := Function.update s.v x (and8 rnd nn.val), pc := s.pc + 2 }

/-- Source `draw_vx_vy`: drawing is a TODO in the source; the position and
sprite range are computed but unused, only the pc advances. -/
def draw_vx_vy (s : Chip8) (x y n : Fin 16) : Chip8 :=
  { s with pc := s.pc + 2 }

/-- Source `skip_vx`: the keypad is a TODO in the source; no state changes,
the pc does not even advance. -/
def skip_vx (s : Chip8) (x : Fin 16) : Chip8 :=
  s

/-- Source `skipn_vx`: keypad TODO, identical no-op. -/
def skipn_vx (s : Chip8) (x : Fin 16) : Chip8 :=
  s

/-- Source `set_delay`: VX := delay timer. -/
def set_delay (s : Chip8) (x : Fin 16) : Chip8 :=
  { s with v := Function.update s.v x s.delay_timer, pc := s.pc + 2 }

/-- Source `wait_vx`: record the wait-for-key state; the pc does not advance. -/
def wait_vx (s : Chip8) (x : Fin 16) : Chip8 :=
  { s with wait_for_key := (true, ⟨x.val, by omega⟩) }

/-- Source `set_vx_delay`: delay timer := VX. -/
def set_vx_delay (s : Chip8) (x : Fin 16) : Chip8 :=
  { s with delay_timer := s.v x, pc := s.pc + 2 }

/-- Source `set_vx_sound`: sound timer := VX. -/
def set_vx_sound (s : Chip8) (x : Fin 16) : Chip8 :=
  { s with sound_timer := s.v x, pc := s.pc + 2 }

/-- Source `add_vx_to_i`: I := I + VX (usize addition). -/
def add_vx_to_i (s : Chip8) (x : Fin 16) : Chip8 :=
  { s with i := s.i + (s.v x).val, pc := s.pc + 2 }

/-- Source `set_i_sprite`: I := VX * 5, the multiply performed in `u8`
(wrapping in a release build) before the cast to `usize`. -/
def set_i_sprite (s : Chip8) (x : Fin 16) : Chip8 :=
  { s with i := (s.v x).val * 5 % 256, pc := s.pc + 2 }

/-- Sequential memory writes, mirroring an indexed loop writing consecutive
bytes starting at `start`; the first out-of-bounds index panics. -/
def memWriteSeq (mem : Fin 4096 → Fin 256) (start : Nat) :
    List (Fin 256) → Except PanicKind (Fin 4096 → Fin 256)
  | [] => .ok mem
  | b :: rest =>
    if h : start < 4096 then
      memWriteSeq (Function.update mem ⟨start, h⟩ b) (start + 1) rest
    else .error (.indexOutOfBounds start)

/-- Sequential memory reads of `n` consecutive bytes starting at `start`;
the first out-of-bounds index panics. -/
def memReadSeq (mem : Fin 4096 → Fin 256) (start : Nat) :
    Nat → Except PanicKind (List (Fin 256))
  | 0 => .ok []
  | n + 1 =>
    if h : start < 4096 then
      (memReadSeq mem (start + 1) n).map (fun rest => mem ⟨start, h⟩ :: rest)
    else .error (.indexOutOfBounds start)

/-- Source `set_bcd_vx`: store the BCD digits of VX at I, I+1, I+2. -/
def set_bcd_vx (s : Chip8) (x : Fin 16) : Except PanicKind Chip8 := do
  let vx := read_reg_vn s x
  let mem' ← memWriteSeq s.memory s.i
    [⟨vx.val / 100, by omega⟩, ⟨vx.val / 10 % 10, by omega⟩, ⟨vx.val % 100 % 10, by omega⟩]
  .ok { s with memory := mem', pc := s.pc + 2 }

/-- The registers V0..VX as a list (the values stored by the block store). -/
def regSlice (v : Fin 16 → Fin 256) (x : Fin 16) : List (Fin 256) :=
  ((List.finRange 16).take (x.val + 1)).map v

/-- Register file after the block load: V0..VX from the loaded bytes, the
rest unchanged. -/
def loadRegs (v : Fin 16 → Fin 256) (bytes : List (Fin 256)) : Fin 16 → Fin 256 :=
  fun j => if h : j.val < bytes.length then bytes.get ⟨j.val, h⟩ else v j

/-- Read of a byte at an arbitrary address, defaulting out of range (used
only to state lemmas; in-range by hypothesis wherever it appears). -/
def memPeek (mem : Fin 4096 → Fin 256) (a : Nat) : Fin 256 :=
  if h : a < 4096 then mem ⟨a, h⟩ else 0

/-- Source `set_mem_regs`: store V0..VX to memory at I; I += X + 1; pc += 2. -/
def set_mem_regs (s : Chip8) (x : Fin 16) : Except PanicKind Chip8 := do
  let mem' ← memWriteSeq s.memory s.i (regSlice s.v x)
  .ok { s with memory := mem', i := s.i + x.val + 1, pc := s.pc + 2 }

/-- Source `fill_regs_mem`: load V0..VX from memory at I; I += X + 1; pc += 2. -/
def fill_regs_mem (s : Chip8) (x : Fin 16) : Except PanicKind Chip8 := do
  let bytes ← memReadSeq s.memory s.i (x.val + 1)
  .ok { s with v := loadRegs s.v bytes, i := s.i + x.val + 1, pc := s.pc + 2 }

/-- Source `check_opcode`: decode the opcode into nibbles and dispatch.
The random byte consumed by the 0xCXNN row is the parameter `rnd`.  Note
the 0x00EE row calls `reset`, not `ret`, and the 0xBNNN row computes
`ops & (0x0FFF + v0)` because `+` binds tighter than `&` in Rust. -/
def check_opcode (s : Chip8) (ops : Nat) (rnd : Fin 256) : Except PanicKind Chip8 :=
  let x : Fin 16 := ⟨(ops &&& 0x0F00) >>> 8, by
    have h1 : ops &&& 0x0F00 ≤ 0x0F00 := Nat.and_le_right
    have h2 : (ops &&& 0x0F00) >>> 8 = (ops &&& 0x0F00) / 2 ^ 8 :=
      Nat.shiftRight_eq_div_pow _ _
    have h3 : (ops &&& 0x0F00) / 2 ^ 8 ≤ 0x0F00 / 2 ^ 8 := Nat.div_le_div_right h1
    omega⟩
  let y : Fin 16 := ⟨(ops &&& 0x00F0) >>> 4, by
    have h1 : ops &&& 0x00F0 ≤ 0x00F0 := Nat.and_le_right
    have h2 : (ops &&& 0x00F0) >>> 4 = (ops &&& 0x00F0) / 2 ^ 4 :=
      Nat.shiftRight_eq_div_pow _ _
    have h3 : (ops &&& 0x00F0) / 2 ^ 4 ≤ 0x00F0 / 2 ^ 4 := Nat.div_le_div_right h1
    omega⟩
  let n : Fin 16 := ⟨ops &&& 0x000F, lt_of_le_of_lt Nat.and_le_right (by omega)⟩
  let nn : Fin 256 := ⟨ops &&& 0x00FF, lt_of_le_of_lt Nat.and_le_right (by omega)⟩
  match (ops &&& 0xF000) >>> 12, (ops &&& 0x0F00) >>> 8, (ops &&& 0x00F0) >>> 4,
      ops &&& 0x000F with
  | 0x0, 0x0, 0xE, 0x0 => .ok (cls s)
  | 0x0, 0x0, 0xE, 0xE => .ok (reset s)
  | 0x1, _, _, _ => .ok (jump_addr s (ops &&& 0x0FFF))
  | 0x2, _, _, _ => .ok (call_sub s (ops &&& 0x0FFF))
  | 0x3, _, _, _ => .ok (se_vx s x nn)
  | 0x4, _, _, _ => .ok (sne_vx s x nn)
  | 0x5, _, _, 0x0 => .ok (se_vx_vy s x y)
  | 0x6, _, _, _ => .ok (set_reg_vn s x nn)
  | 0x7, _, _, _ => .ok (set_reg_vn s x (add8wrap (read_reg_vn s x) nn))
  | 0x8, _, _, 0x0 => .ok (set_reg_vn s x (read_reg_vn s y))
  | 0x8, _, _, 0x1 => .ok (or_vx_vy s x y)
  | 0x8, _, _, 0x2 => .ok (and_vx_vy s x y)
  | 0x8, _, _, 0x3 => .ok (xor_vx_vy s x y)
  | 0x8, _, _, 0x4 => .ok (add_vx_vy s x y)
  | 0x8, _, _, 0x5 => .ok (sub_vx_vy s x y)
  | 0x8, _, _, 0x6 => .ok (rshft_vx_vy s x y)
  | 0x8, _, _, 0x7 => .ok (subn_vx_vy s x y)
  | 0x8, _, _, 0xE => .ok (lshft_vx_vy s x y)
  | 0x9, _, _, 0x0 => .ok (skip_ne_vx_vy s x y)
  | 0xA, _, _, _ => .ok (set_i_addr s (ops &&& 0x0FFF))
  | 0xB, _, _, _ => .ok (jump_addr s (ops &&& (0x0FFF + (read_reg_vn s 0).val)))
  | 0xC, _, _, _ => .ok (rnd_vx_nn s x nn rnd)
  | 0xD, _, _, _ => .ok (draw_vx_vy s x y n)
  | 0xE, _, 0x9, 0xE => .ok (skip_vx s x)
  | 0xE, _, 0xA, 0x1 => .ok (skipn_vx s x)
  | 0xF, _, 0x0, 0x7 => .ok (set_delay s x)
  | 0xF, _, 0x0, 0xA => .ok (wait_vx s x)
  | 0xF, _, 0x1, 0x5 => .ok (set_vx_delay s x)
  | 0xF, _, 0x1, 0x8 => .ok (set_vx_sound s x)
  | 0xF, _, 0x1, 0xE => .ok (add_vx_to_i s x)
  | 0xF, _, 0x2, 0x9 => .ok (set_i_sprite s x)
  | 0xF, _, 0x3, 0x3 => set_bcd_vx s x
  | 0xF, _, 0x5, 0x5 => set_mem_regs s x
  | 0xF, _, 0x6, 0x5 => fill_regs_mem s x
  | _, _, _, _ => .error (.opcodeNotImplemented ops s.pc)

/-- Source `get_opcode`: big-endian fetch of two bytes at the pc; an
out-of-bounds index panics (memory[pc] is evaluated first). -/
def get_opcode (s : Chip8) : Except PanicKind Nat :=
  if h1 : s.pc < 4096 then
    if h2 : s.pc + 1 < 4096 then
      .ok (((s.memory ⟨s.pc, h1⟩).val <<< 8) ||| (s.memory ⟨s.pc + 1, h2⟩).val)
    else .error (.indexOutOfBounds (s.pc + 1))
  else .error (.indexOutOfBounds s.pc)

/-- Source `execute_cycle`: fetch then dispatch. -/
def execute_cycle (s : Chip8) (rnd : Fin 256) : Except PanicKind Chip8 := do
  let ops ← get_opcode s
  check_opcode s ops rnd

/-- Modelled from the spec: the `resume_with_key` host entry point (spec
section 6 and section 4.5) has no counterpart anywhere in `src/main.rs`.  Per
the spec it is valid only while awaiting a key (ignored otherwise), writes
the key code into the pending register, returns the machine to the running
state, and advances the pc by 2. -/
def resume_with_key (s : Chip8) (key : Fin 16) : Chip8 :=
  if s.wait_for_key.1 then
    { s with v := Function.update s.v ⟨s.wait_for_key.2.val % 16, Nat.mod_lt _ (by omega)⟩
                    ⟨key.val, by omega⟩,
             wait_for_key := (false, 0),
             pc := s.pc + 2 }
  else s

/-- Program counter of a step outcome (`none` on a panic). -/
def pcOf : Except PanicKind Chip8 → Option Nat
  | .ok s => some s.pc
  | .error _ => none

/-- Stack of a step outcome (`none` on a panic). -/
def stackOf : Except PanicKind Chip8 → Option (List (Fin 65536))
  | .ok s => some s.stack
  | .error _ => none

/-- A register of a step outcome (`none` on a panic). -/
def regOf (r : Except PanicKind Chip8) (j : Fin 16) : Option (Fin 256) :=
  match r with
  | .ok s => some (s.v j)
  | .error _ => none

/-- Panic payload of a step outcome (`none` on normal completion). -/
def errOf : Except PanicKind Chip8 → Option PanicKind
  | .ok _ => none
  | .error e => some e

/-- A machine about to call a subroutine: pc = 0x300, one stacked address. -/
def stateC1 : Chip8 :=
  { chip8_new with pc := 0x300, stack := [0x333] }

/-- V0 = 0x01, V1 = 0x02 (the first subtraction example in the spec). -/
def stateC2a : Chip8 :=
  { chip8_new with v := Function.update (Function.update chip8_new.v 0 1) 1 2 }

/-- V0 = 0x05, V1 = 0x02 (the second subtraction example in the spec). -/
def stateC2b : Chip8 :=
  { chip8_new with v := Function.update (Function.update chip8_new.v 0 5) 1 2 }

/-- V0 = 0x02, V1 = 0x05 (a reverse-subtraction example). -/
def stateC2c : Chip8 :=
  { chip8_new with v := Function.update (Function.update chip8_new.v 0 2) 1 5 }

/-- A machine whose call stack already holds 16 return addresses. -/
def stateC4 : Chip8 :=
  { chip8_new with stack := List.replicate 16 0 }

/-- V0 = 1, for the jump-with-offset instruction. -/
def stateC5 : Chip8 :=
  { chip8_new with v := Function.update chip8_new.v 0 1 }

/-- V0 = 0x80 (most-significant bit set), `shift_vy` = false. -/
def stateC6 : Chip8 :=
  { chip8_new with v := Function.update chip8_new.v 0 0x80 }

/-- V0 = 0b00000011, `shift_vy` = false (the right-shift example in the spec). -/
def stateC6w : Chip8 :=
  { chip8_new with v := Function.update chip8_new.v 0 3 }

/-- A machine whose next instruction is 0xF30A (wait for key into V3). -/
def stateC7 : Chip8 :=
  { chip8_new with memory := fun a =>
      if a.val = 0x200 then 0xF3 else if a.val = 0x201 then 0x0A else 0 }

/-- Index register at the last memory cell: a block transfer of two or more
bytes runs out of memory. -/
def stateC8 : Chip8 :=
  { chip8_new with i := 4095 }

/-- Registers with distinctive values and a mid-memory index register, for
the block-transfer round trip. -/
def stateC8w : Chip8 :=
  { chip8_new with
    i := 100
    v := Function.update (Function.update chip8_new.v 0 7) 3 9 }

/-- V15 = 200 and V1 = 100: their sum overflows a byte. -/
def stateC10 : Chip8 :=
  { chip8_new with v := Function.update (Function.update chip8_new.v FLAG 200) 1 100 }

/-- Value view of masking a byte with 0x01: the least-significant bit. -/
theorem and8_one_val : ∀ a : Fin 256, (and8 a 0x01).val = a.val % 2 := by decide

/-- Value view of masking a byte with 0x80: 0x80 when the most-significant
bit is set, 0 otherwise. -/
theorem and8_msb_val :
    ∀ a : Fin 256, (and8 a 0x80).val = if 128 ≤ a.val then 128 else 0 := by
  decide

/-- Value view of the right shift. -/
theorem shr8_val : ∀ a : Fin 256, (shr8 a).val = a.val / 2 := by decide

/-- Value view of the left shift. -/
theorem shl8_val : ∀ a : Fin 256, (shl8 a).val = a.val * 2 % 256 := by decide

/-- Length of the stored register block. -/
theorem regSlice_length (v : Fin 16 → Fin 256) (x : Fin 16) :
    (regSlice v x).length = x.val + 1 := by
  have := x.isLt
  simp [regSlice]
  omega

/-- Indexing the stored register block reads the corresponding register. -/
theorem regSlice_getD (v : Fin 16 → Fin 256) (x : Fin 16) (j : Nat) (hj : j ≤ x.val) :
    (regSlice v x).getD j 0 = v ⟨j, lt_of_le_of_lt hj x.isLt⟩ := by
  have hlen : (regSlice v x).length = x.val + 1 := regSlice_length v x
  rw [regSlice] at hlen ⊢
  rw [List.getD_eq_getElem _ _ (by omega), List.getElem_map, List.getElem_take,
    List.getElem_finRange]
  exact congrArg v (Fin.ext (by simp))

/-- In-bounds sequential writes succeed and produce the expected memory. -/
theorem memWriteSeq_ok (bytes : List (Fin 256)) :
    ∀ (mem : Fin 4096 → Fin 256) (start : Nat), start + bytes.length ≤ 4096 →
      memWriteSeq mem start bytes = .ok (fun k =>
        if start ≤ k.val ∧ k.val < start + bytes.length
        then bytes.getD (k.val - start) 0 else mem k) := by
  induction bytes with
  | nil =>
    intro mem start h
    rw [memWriteSeq]
    congr 1
    funext k
    rw [if_neg (by simp only [List.length_nil]; omega)]
  | cons b rest ih =>
    intro mem start h
    have hL : (b :: rest).length = rest.length + 1 := by simp
    rw [memWriteSeq, dif_pos (by omega)]
    rw [ih _ (start + 1) (by omega)]
    congr 1
    funext k
    by_cases h1 : start + 1 ≤ k.val ∧ k.val < start + 1 + rest.length
    · rw [if_pos h1, if_pos (by omega)]
      have hks : k.val - start = (k.val - (start + 1)) + 1 := by omega
      rw [hks, List.getD_cons_succ]
    · rw [if_neg h1]
      by_cases h2 : start ≤ k.val ∧ k.val < start + (b :: rest).length
      · have hk : k.val = start := by omega
        have hkf : k = ⟨start, by omega⟩ := Fin.ext hk
        rw [if_pos (by omega), hkf]
        simp [Function.update_same]
      · have hkv : k.val ≠ start := by omega
        rw [if_neg h2,
          Function.update_noteq (fun hh => hkv (congrArg Fin.val hh))]

/-- In-bounds sequential reads succeed and return the expected bytes. -/
theorem memReadSeq_ok :
    ∀ (n : Nat) (mem : Fin 4096 → Fin 256) (start : Nat), start + n ≤ 4096 →
      memReadSeq mem start n =
        .ok ((List.range n).map fun j => memPeek mem (start + j)) := by
  intro n
  induction n with
  | zero =>
    intro mem start h
    rw [memReadSeq]
    simp
  | succ n ih =>
    intro mem start h
    rw [memReadSeq, dif_pos (by omega)]
    rw [ih mem (start + 1) (by omega)]
    simp only [Except.map]
    congr 1
    rw [List.range_succ_eq_map, List.map_cons, List.map_map]
    congr 1
    · rw [memPeek, dif_pos (by omega)]
      exact congrArg mem (Fin.ext (by simp))
    · exact List.map_congr_left fun a _ => congrArg (memPeek mem) (by omega)

/-- Indexing the byte list produced by a sequential read. -/
theorem readBlock_get (mem : Fin 4096 → Fin 256) (start n jv : Nat)
    (hh : jv < ((List.range n).map fun j => memPeek mem (start + j)).length) :
    ((List.range n).map fun j => memPeek mem (start + j)).get ⟨jv, hh⟩
      = memPeek mem (start + jv) := by
  simp

/-- In-bounds block store: explicit result state. -/
theorem set_mem_regs_ok (s : Chip8) (x : Fin 16) (h : s.i + x.val < 4096) :
    set_mem_regs s x = .ok { s with
      memory := fun k =>
        if s.i ≤ k.val ∧ k.val < s.i + (x.val + 1)
        then (regSlice s.v x).getD (k.val - s.i) 0 else s.memory k,
      i := s.i + x.val + 1, pc := s.pc + 2 } := by
  rw [set_mem_regs,
    memWriteSeq_ok (regSlice s.v x) s.memory s.i (by rw [regSlice_length]; omega)]
  show Except.ok _ = _
  congr 2
  funext k
  rw [regSlice_length]

/-- In-bounds block load: explicit result state. -/
theorem fill_regs_mem_ok (s : Chip8) (x : Fin 16) (h : s.i + x.val < 4096) :
    fill_regs_mem s x = .ok { s with
      v := loadRegs s.v ((List.range (x.val + 1)).map fun j => memPeek s.memory (s.i + j)),
      i := s.i + x.val + 1, pc := s.pc + 2 } := by
  rw [fill_regs_mem, memReadSeq_ok (x.val + 1) s.memory s.i (by omega)]
  rfl

/-- C8 (amended): for every x in 0..=15 and every machine state whose block
fits in memory (I + x ≤ 4095; otherwise the store/load panics on an
out-of-bounds index, see the counterexample): the block store writes
registers 0..=x to memory starting at the index register, the block load
reads registers 0..=x from memory starting at the index register, each
leaves the index register equal to its pre-operation value plus x+1 (and
advances the pc by 2), and a store followed by a load over the same memory
region restores the original values of all registers. -/
theorem claim8_block_store_load_roundtrip (x : Fin 16) (s : Chip8)
    (h : s.i + x.val < MEMORY_SIZE) :
    (set_mem_regs s x = .ok { s with
        memory := fun k =>
          if hk : s.i ≤ k.val ∧ k.val < s.i + x.val + 1
          then s.v ⟨k.val - s.i, by have := x.isLt; omega⟩
          else s.memory k,
        i := s.i + x.val + 1, pc := s.pc + 2 }) ∧
    (fill_regs_mem s x = .ok { s with
        v := fun j =>
          if hj : j.val ≤ x.val
          then s.memory ⟨s.i + j.val, by have h4 : s.i + x.val < 4096 := h; omega⟩
          else s.v j,
        i := s.i + x.val + 1, pc := s.pc + 2 }) ∧
    ((set_mem_regs s x).bind fun s1 =>
      fill_regs_mem { s1 with i := s.i } x).map Chip8.v = .ok s.v := by
  have h4 : s.i + x.val < 4096 := h
  have hmaplen : ∀ mem : Fin 4096 → Fin 256,
      ((List.range (x.val + 1)).map fun j => memPeek mem (s.i + j)).length
        = x.val + 1 := by
    intro mem
    simp
  refine ⟨?_, ?_, ?_⟩
  · rw [set_mem_regs_ok s x h4]
    refine congrArg Except.ok ?_
    apply Chip8.ext <;> try rfl
    funext k
    dsimp only
    by_cases hk : s.i ≤ k.val ∧ k.val < s.i + (x.val + 1)
    · rw [if_pos hk, dif_pos (by omega), regSlice_getD s.v x _ (by omega)]
    · rw [if_neg hk, dif_neg (by omega)]
  · rw [fill_regs_mem_ok s x h4]
    refine congrArg Except.ok ?_
    apply Chip8.ext <;> try rfl
    funext j
    dsimp only
    simp only [loadRegs]
    by_cases hj : j.val ≤ x.val
    · rw [dif_pos (by rw [hmaplen]; have := j.isLt; omega), dif_pos hj,
        readBlock_get, memPeek, dif_pos (by have := j.isLt; omega)]
    · rw [dif_neg (by rw [hmaplen]; omega), dif_neg hj]
  · rw [set_mem_regs_ok s x h4]
    simp only [Except.bind]
    rw [fill_regs_mem_ok]
    · simp only [Except.map]
      refine congrArg Except.ok ?_
      funext j
      simp only [loadRegs]
      by_cases hj : j.val ≤ x.val
      · rw [dif_pos (by rw [hmaplen]; have := j.isLt; omega),
          readBlock_get, memPeek, dif_pos (by have := j.isLt; omega)]
        dsimp only
        rw [if_pos
          (show s.i ≤ s.i + j.val ∧ s.i + j.val < s.i + (x.val + 1) by omega)]
        rw [regSlice_getD s.v x _ (by omega)]
        exact congrArg s.v (Fin.ext (by simp))
      · rw [dif_neg (by rw [hmaplen]; omega)]
    · exact h4

/-- C9: for every machine state, `reset` zeroes all 16 registers, empties the
stack, sets the program counter to 0x200 and the index register to 0, and
leaves every byte of the 4096-byte memory unchanged. -/
theorem claim9_reset_preserves_memory (s : Chip8) :
    (∀ j : Fin 16, (reset s).v j = 0) ∧ (reset s).stack = [] ∧
    (reset s).pc = 0x200 ∧ (reset s).i = 0 ∧
    ∀ a : Fin 4096, (reset s).memory a = s.memory a :=
  ⟨fun _ => rfl, rfl, rfl, rfl, fun _ => rfl⟩

/-- C10: when the add-register instruction targets V15, the low byte of the
sum written to V15 is immediately overwritten by the carry, so V15 ends up
1 exactly when the unclamped sum exceeds 255 and 0 otherwise, the low 8 bits
of the sum are stored nowhere (all other registers are unchanged), and the
pc advances by 2. -/
theorem claim10_add_to_flag_keeps_carry_only (s : Chip8) (y : Fin 16) :
    ((add_vx_vy s FLAG y).v FLAG =
      if (s.v FLAG).val + (s.v y).val > 255 then 1 else 0) ∧
    (add_vx_vy s FLAG y).pc = s.pc + 2 ∧
    ∀ j : Fin 16, j ≠ FLAG → (add_vx_vy s FLAG y).v j = s.v j := by
  unfold add_vx_vy
  refine ⟨by simp, rfl, fun j hj => ?_⟩
  simp [Function.update_noteq hj]

/-- C6 (amended): for shifts whose destination register and selected source
register are not the flag register V15, the source operand is VY when
`shift_vy` is set and VX otherwise; the flag register receives the source
value masked with 0x01 for right-shift (the least-significant bit, 0 or 1)
and masked with 0x80 for left-shift (0x80 when the most-significant bit is
set, 0 otherwise — not 0 or 1), computed from the pre-shift source value;
the shifted result is stored in the destination register and the pc advances
by 2. -/
theorem claim6_shift_flag_and_result (s : Chip8) (x y : Fin 16)
    (hx : x ≠ FLAG) (hn : (if s.shift_vy then y else x) ≠ FLAG) :
    ((rshft_vx_vy s x y).v x = shr8 (s.v (if s.shift_vy then y else x))) ∧
    (((rshft_vx_vy s x y).v FLAG).val =
      (s.v (if s.shift_vy then y else x)).val % 2) ∧
    (rshft_vx_vy s x y).pc = s.pc + 2 ∧
    ((lshft_vx_vy s x y).v x = shl8 (s.v (if s.shift_vy then y else x))) ∧
    (((lshft_vx_vy s x y).v FLAG).val =
      if 128 ≤ (s.v (if s.shift_vy then y else x)).val then 128 else 0) ∧
    (lshft_vx_vy s x y).pc = s.pc + 2 := by
  unfold rshft_vx_vy lshft_vx_vy
  refine ⟨?_, ?_, rfl, ?_, ?_, rfl⟩
  · simp [Function.update_noteq hn]
  · simp [Function.update_noteq hn, Function.update_noteq (Ne.symm hx),
      and8_one_val (s.v (if s.shift_vy then y else x))]
  · simp [Function.update_noteq hn]
  · simp [Function.update_noteq hn, Function.update_noteq (Ne.symm hx),
      and8_msb_val (s.v (if s.shift_vy then y else x))]

/-- One step with an in-bounds pc dispatches on the two fetched bytes. -/
theorem execute_cycle_eq (s : Chip8) (rnd : Fin 256) (h0 : s.pc < 4096)
    (hpc : s.pc + 1 < 4096) :
    execute_cycle s rnd = check_opcode s
      (((s.memory ⟨s.pc, h0⟩).val <<< 8) ||| (s.memory ⟨s.pc + 1, hpc⟩).val) rnd := by
  rw [execute_cycle, get_opcode, dif_pos h0, dif_pos hpc]
  rfl

/-- C1: the claim fails on the code: opcode 0x00EE is dispatched to `reset`,
not to `ret`.  From pc = 0x300 with stack [0x333], the call 0x2400 pushes
0x300 (stack [0x300, 0x333], pc 0x400); executing 0x00EE then yields
pc = 0x200 (PROGRAM_START), not the pushed 0x300, and an empty stack, not
the pre-call depth 1.  The dead `ret` helper would have produced exactly
the claimed behavior. -/
theorem claim1_ret_opcode_performs_reset :
    pcOf (check_opcode stateC1 0x2400 0) = some 0x400 ∧
    stackOf (check_opcode stateC1 0x2400 0) = some [0x300, 0x333] ∧
    pcOf ((check_opcode stateC1 0x2400 0).bind fun s1 =>
      check_opcode s1 0x00EE 0) = some 0x200 ∧
    stackOf ((check_opcode stateC1 0x2400 0).bind fun s1 =>
      check_opcode s1 0x00EE 0) = some [] ∧
    pcOf (ret (call_sub stateC1 0x400)) = some 0x300 ∧
    stackOf (ret (call_sub stateC1 0x400)) = some [0x333] := by
  decide

/-- C2: the claim fails on the code: the subtraction writes the wrapping
difference as claimed, but the flag polarity is inverted relative to both
the claim and the source doc comment.  With V0 = 0x01, V1 = 0x02, opcode
0x8015 gives V0 = 0xFF but VF = 1 (claim: 0); with V0 = 0x05, V1 = 0x02 it
gives V0 = 0x03 but VF = 0 (claim: 1); the reverse subtraction 0x8017 with
V0 = 0x02, V1 = 0x05 gives V0 = 0x03 but VF = 0 (claim: 1). -/
theorem claim2_sub_flag_polarity_inverted :
    regOf (check_opcode stateC2a 0x8015 0) 0 = some 0xFF ∧
    regOf (check_opcode stateC2a 0x8015 0) FLAG = some 1 ∧
    regOf (check_opcode stateC2b 0x8015 0) 0 = some 0x03 ∧
    regOf (check_opcode stateC2b 0x8015 0) FLAG = some 0 ∧
    regOf (check_opcode stateC2c 0x8017 0) 0 = some 0x03 ∧
    regOf (check_opcode stateC2c 0x8017 0) FLAG = some 0 := by
  decide

/-- C3 counterexample: on the unmatched opcode 0x0000 the step is the
`opcode_not_implemented!` panic — a process abort in the source, modelled
as `Except.error` — not a typed `UnimplementedOpcode` value returned to the
host (no such type exists in the source). -/
theorem claim3_counterexample_panic_on_unknown :
    check_opcode chip8_new 0x0000 0 =
      .error (.opcodeNotImplemented 0x0000 0x200) :=
  rfl

/-- C3 (amended): when a fetched opcode matches no dispatch pattern (for
example 0x0000, 0x5007, 0x8AB8, 0xE09F), `check_opcode` panics via the
`opcode_not_implemented!` macro, whose message carries the exact raw opcode
value and the program counter at the time of fetch; the error is a process
abort, not a typed result returned to the host. -/
theorem claim3_unmatched_opcode_panics (s : Chip8) (rnd : Fin 256) :
    check_opcode s 0x0000 rnd = .error (.opcodeNotImplemented 0x0000 s.pc) ∧
    check_opcode s 0x5007 rnd = .error (.opcodeNotImplemented 0x5007 s.pc) ∧
    check_opcode s 0x8AB8 rnd = .error (.opcodeNotImplemented 0x8AB8 s.pc) ∧
    check_opcode s 0xE09F rnd = .error (.opcodeNotImplemented 0xE09F s.pc) :=
  ⟨rfl, rfl, rfl, rfl⟩

/-- C4 counterexample: with 16 stacked addresses a further call succeeds
(stack depth 17, no `StackOverflow` — the source never consults
`STACK_SIZE`), and a return opcode (0x00EE) on an empty stack completes
normally (it soft-resets instead of reporting `StackUnderflow`). -/
theorem claim4_counterexample_no_overflow_error :
    errOf (check_opcode stateC4 0x2345 0) = none ∧
    (stackOf (check_opcode stateC4 0x2345 0)).map List.length = some 17 ∧
    errOf (check_opcode chip8_new 0x00EE 0) = none := by
  decide

/-- C4 (amended): a call executed with 16 stacked addresses succeeds and
pushes a 17th entry — the stack is an unbounded `Vec`, no overflow check
exists; opcode 0x00EE with an empty stack performs a soft reset (it is
dispatched to `reset`, not `ret`), so no `StackUnderflow` is reported
through `step`; only the dead `ret` helper panics (via `expect`) on an
empty stack, and that is a process abort, not an error value. -/
theorem claim4_no_stack_guard (s t : Chip8) (rnd rnd2 : Fin 256)
    (hs : s.stack.length = 16) (ht : t.stack = []) :
    check_opcode s 0x2345 rnd = .ok (call_sub s 0x345) ∧
    (call_sub s 0x345).stack.length = 17 ∧
    check_opcode t 0x00EE rnd2 = .ok (reset t) ∧
    ret t = .error .popEmptyStack := by
  refine ⟨rfl, ?_, rfl, ?_⟩
  · simp [call_sub, jump_addr, hs]
  · simp [ret, ht]

/-- Witness for C4 at the 16-deep stack and the fresh machine. -/
theorem claim4_witness :
    stateC4.stack.length = 16 ∧ chip8_new.stack = [] ∧
    (check_opcode stateC4 0x2345 0 = .ok (call_sub stateC4 0x345) ∧
     (call_sub stateC4 0x345).stack.length = 17 ∧
     check_opcode chip8_new 0x00EE 0 = .ok (reset chip8_new) ∧
     ret chip8_new = .error .popEmptyStack) :=
  ⟨by decide, rfl, claim4_no_stack_guard stateC4 chip8_new 0 0 (by decide) rfl⟩

/-- C5: the claim fails on the code: Rust parses `ops & 0x0FFF + v0` as
`ops & (0x0FFF + v0)` (`+` binds tighter than `&`), contradicting the
source comment "Jumps to address NNN + V0".  With V0 = 1 and opcode 0xB100
the pc becomes 0xB100 & 0x1000 = 0x1000, not 0x100 + 1 = 0x101.  With
V0 = 0 the mask is 0x0FFF and the result 0x100 happens to match the claim. -/
theorem claim5_jump_offset_wrong_precedence :
    pcOf (check_opcode stateC5 0xB100 0) = some 0x1000 ∧
    pcOf (check_opcode chip8_new 0xB100 0) = some 0x100 := by
  decide

/-- C6 counterexample: left shift of V0 = 0x80 (shift_vy = false, opcode
0x800E) stores 0x80 in the flag register, not the bit value 1 the claim
requires; the shifted result in V0 is 0. -/
theorem claim6_counterexample_left_shift_flag :
    regOf (check_opcode stateC6 0x800E 0) FLAG = some 0x80 ∧
    regOf (check_opcode stateC6 0x800E 0) 0 = some 0 := by
  decide

/-- Witness for C6 at the right-shift example of the spec: V0 = 0b00000011,
shift_vy = false, giving result 0b00000001 and flag 1. -/
theorem claim6_witness :
    ((0 : Fin 16) ≠ FLAG) ∧
    ((if stateC6w.shift_vy then (0 : Fin 16) else 0) ≠ FLAG) ∧
    ((rshft_vx_vy stateC6w 0 0).v 0).val = 1 ∧
    ((rshft_vx_vy stateC6w 0 0).v FLAG).val = 1 := by
  have hc := claim6_shift_flag_and_result stateC6w 0 0 (by decide) (by decide)
  refine ⟨by decide, by decide, ?_, ?_⟩
  · rw [hc.1]
    decide
  · rw [hc.2.1]
    decide

/-- C7: after the wait-for-key opcode 0xFX0A executes, the pc has not
advanced; a further `execute_cycle` (the `step`) returns the waiting state
itself unchanged — it refetches the same wait opcode, so repeated steps are
a state-level no-op; once the spec-modelled `resume_with_key` is invoked,
the target register holds the supplied key code, the waiting flag is
cleared, and the pc has advanced by exactly 2 relative to its pre-wait
value. -/
theorem claim7_wait_suspends_until_resume (s : Chip8) (x key : Fin 16)
    (rnd rnd2 : Fin 256) (hpc : s.pc + 1 < 4096)
    (hm0 : ∀ h : s.pc < 4096,
      s.memory ⟨s.pc, h⟩ = ⟨0xF0 + x.val, by have := x.isLt; omega⟩)
    (hm1 : s.memory ⟨s.pc + 1, hpc⟩ = ⟨0x0A, by omega⟩) :
    execute_cycle s rnd = .ok (wait_vx s x) ∧
    (wait_vx s x).pc = s.pc ∧
    execute_cycle (wait_vx s x) rnd2 = .ok (wait_vx s x) ∧
    (resume_with_key (wait_vx s x) key).v x =
      ⟨key.val, by have := key.isLt; omega⟩ ∧
    (resume_with_key (wait_vx s x) key).pc = s.pc + 2 ∧
    (resume_with_key (wait_vx s x) key).wait_for_key.1 = false := by
  have h0 : s.pc < 4096 := by omega
  have hf1 : execute_cycle s rnd = check_opcode s
      (((s.memory ⟨s.pc, h0⟩).val <<< 8) ||| (s.memory ⟨s.pc + 1, hpc⟩).val) rnd :=
    execute_cycle_eq s rnd h0 hpc
  have hf2 : execute_cycle (wait_vx s x) rnd2 = check_opcode (wait_vx s x)
      (((s.memory ⟨s.pc, h0⟩).val <<< 8) ||| (s.memory ⟨s.pc + 1, hpc⟩).val) rnd2 :=
    execute_cycle_eq (wait_vx s x) rnd2 h0 hpc
  rw [hf1, hf2, hm0 h0, hm1]
  obtain ⟨xv, hxv⟩ := x
  interval_cases xv <;>
    exact ⟨by norm_num; exact rfl, rfl, by norm_num; exact rfl, rfl, rfl, rfl⟩

/-- Witness for C7 at a machine whose next instruction is 0xF30A. -/
theorem claim7_witness :
    stateC7.pc + 1 < 4096 ∧
    stateC7.memory ⟨stateC7.pc, by decide⟩ = ⟨0xF3, by decide⟩ ∧
    stateC7.memory ⟨stateC7.pc + 1, by decide⟩ = ⟨0x0A, by decide⟩ ∧
    (execute_cycle stateC7 0 = .ok (wait_vx stateC7 3) ∧
     (wait_vx stateC7 3).pc = stateC7.pc ∧
     execute_cycle (wait_vx stateC7 3) 0 = .ok (wait_vx stateC7 3) ∧
     (resume_with_key (wait_vx stateC7 3) 7).v 3 = ⟨7, by omega⟩ ∧
     (resume_with_key (wait_vx stateC7 3) 7).pc = stateC7.pc + 2 ∧
     (resume_with_key (wait_vx stateC7 3) 7).wait_for_key.1 = false) :=
  ⟨by decide, rfl, rfl,
    claim7_wait_suspends_until_resume stateC7 3 7 0 0 (by decide)
      (fun _ => rfl) rfl⟩

/-- C8 counterexample: with the index register at 4095, a block store of
registers 0..=1 (directly or via opcode 0xF155) panics with an
out-of-bounds index 4096 instead of performing the store, so the
universal quantification of the claim over machine states fails. -/
theorem claim8_counterexample_store_panics :
    errOf (set_mem_regs stateC8 1) = some (.indexOutOfBounds 4096) ∧
    errOf (check_opcode stateC8 0xF155 0) = some (.indexOutOfBounds 4096) := by
  decide

/-- Witness for C8 at x = 3, I = 100, with distinctive register values. -/
theorem claim8_witness :
    stateC8w.i + (3 : Fin 16).val < MEMORY_SIZE ∧
    ((set_mem_regs stateC8w 3).bind fun s1 =>
      fill_regs_mem { s1 with i := stateC8w.i } 3).map Chip8.v =
        .ok stateC8w.v :=
  ⟨by decide, (claim8_block_store_load_roundtrip 3 stateC8w (by decide)).2.2⟩

/-- Witness for C10 at V15 = 200, V1 = 100 (sum 300 overflows). -/
theorem claim10_witness :
    ((0 : Fin 16) ≠ FLAG) ∧
    (add_vx_vy stateC10 FLAG 1).v FLAG = 1 ∧
    (add_vx_vy stateC10 FLAG 1).v 0 = stateC10.v 0 := by
  have hc := claim10_add_to_flag_keeps_carry_only stateC10 1
  refine ⟨by decide, ?_, hc.2.2 0 (by decide)⟩
  rw [hc.1]
  decide

end Ruchip8
